import Mathlib

/-!
# Verification of the `ransaq` crawler's persistence and pipeline logic

This file gives a shallow embedding, in Lean 4, of the parts of the
`ransaq` source (a Rust crawler for the SAQ product catalog) that its
specification makes claims about:

* the database-serialization of the four closed enumerations
  (`src/db/glue.rs`);
* the "Detailed Info" size parser `parse_size` (`src/saq/detailed_info.rs`);
* the SQLite persistence layer (`src/db/mod.rs`): dimension upserts by
  name, the category upsert, the product upsert, and the three
  transactional association reconcilers, including a faithful model of
  the SQLite value-comparison semantics the queries rely on;
* the crawl pipeline driver and the catalog-page producer loop
  (`src/crawler/mod.rs`, `src/saq/mod.rs`).

Timestamps are modelled as abstract `Nat` clock values; tables as lists
of rows.  Machine floats that merely pass through the code unchanged are
modelled as `Rat` (for `parse_size` the concrete inputs at issue are
exactly representable in `f32`, and every arithmetic step performed on
them — parsing a short decimal literal, multiplying by `1000.0`,
`ceil` — is exact in `f32`, so `Rat` arithmetic agrees with the source's
`f32` arithmetic on those inputs).
-/

namespace Ransaq

/-! ## Enumerations and their database serialization (`src/db/glue.rs`,
`src/saq/linked_data.rs`, `src/saq/detailed_info.rs`) -/

/-- Embeds `ItemAvailability` from `src/saq/linked_data.rs`. -/
inductive ItemAvailability where
  | BackOrder
  | Discontinued
  | InStock
  | InStoreOnly
  | LimitedAvailability
  | OnlineOnly
  | OutOfStock
  | PreOrder
  | PreSale
  | SoldOut
deriving DecidableEq, Repr

/-- Embeds `OfferItemCondition` from `src/saq/linked_data.rs`. -/
inductive OfferItemCondition where
  | Damaged
  | New
  | Refurbished
  | Used
deriving DecidableEq, Repr

/-- Embeds `ProductOfQuebec` from `src/saq/detailed_info.rs`. -/
inductive ProductOfQuebec where
  | BottledIn
  | MadeIn
  | Origine
deriving DecidableEq, Repr

/-- Embeds `SugarContentEquality` from `src/saq/detailed_info.rs`. -/
inductive SugarContentEquality where
  | GreaterThan
  | LessThan
  | Equal
deriving DecidableEq, Repr

/-- Every variant of `ItemAvailability`, in source declaration order. -/
def ItemAvailability.all : List ItemAvailability :=
  [.BackOrder, .Discontinued, .InStock, .InStoreOnly, .LimitedAvailability,
   .OnlineOnly, .OutOfStock, .PreOrder, .PreSale, .SoldOut]

/-- Every variant of `OfferItemCondition`, in source declaration order. -/
def OfferItemCondition.all : List OfferItemCondition :=
  [.Damaged, .New, .Refurbished, .Used]

/-- Every variant of `ProductOfQuebec`, in source declaration order. -/
def ProductOfQuebec.all : List ProductOfQuebec :=
  [.BottledIn, .MadeIn, .Origine]

/-- Every variant of `SugarContentEquality`, in source declaration order. -/
def SugarContentEquality.all : List SugarContentEquality :=
  [.GreaterThan, .LessThan, .Equal]

/-- Embeds `impl DbSerialize for ItemAvailability` (`src/db/glue.rs`). -/
def ItemAvailability.db_serialize : ItemAvailability → String
  | .BackOrder => "back_order"
  | .Discontinued => "discontinued"
  | .InStock => "in_stock"
  | .InStoreOnly => "in_store_only"
  | .LimitedAvailability => "limited_availability"
  | .OnlineOnly => "online_only"
  | .OutOfStock => "out_of_stock"
  | .PreOrder => "pre_order"
  | .PreSale => "pre_sale"
  | .SoldOut => "sold_out"

/-- Embeds `impl DbSerialize for OfferItemCondition` (`src/db/glue.rs`). -/
def OfferItemCondition.db_serialize : OfferItemCondition → String
  | .Damaged => "damaged"
  | .New => "new"
  | .Refurbished => "refurbished"
  | .Used => "used"

/-- Embeds `impl DbSerialize for ProductOfQuebec` (`src/db/glue.rs`). -/
def ProductOfQuebec.db_serialize : ProductOfQuebec → String
  | .BottledIn => "bottled_in_quebec"
  | .MadeIn => "made_in_quebec"
  | .Origine => "origine_quebec"

/-- Embeds `impl DbSerialize for SugarContentEquality` (`src/db/glue.rs`). -/
def SugarContentEquality.db_serialize : SugarContentEquality → String
  | .GreaterThan => ">"
  | .LessThan => "<"
  | .Equal => "="

/-! ## The "Detailed Info" size parser (`src/saq/detailed_info.rs`)

`parse_size` matches its input against the anchored regex
`\A((\d+) x )?(\d+(\.\d+)?) (mL|ml|L)\z` and, on a match, parses group 2
with `u8::from_str` (erroring above 255), parses group 3 with
`f32::from_str`, and computes the milliliter count as `num.ceil() as u32`
for unit `mL`/`ml` and `(num * 1000.0).ceil() as u32` for unit `L`.

The regex is deterministic on its language: `\d+` before ` x `, before
`.`, before ` ` and after `.` can only match maximal digit runs (no
following alternative re-consumes a digit), and the optional group 1 can
match exactly when the string starts with digits followed by `" x "`
(when it does, the group-less reading would need `x...` to be a unit,
which is impossible).  The matcher below exploits this with maximal-munch
digit runs and no backtracking.

The decimal value is evaluated exactly (as `scaled / 10^k` with a
ceiling division) rather than through `f32`.  `f32` parsing and the
single multiplication/`ceil` are exact for decimals with at most 7
significant digits and values below `2^24`, so the model agrees with the
source on all inputs of that size — in particular on every input the
claims mention. -/

/-- The maximal run of decimal digits at the head of the list, and the rest. -/
def takeDigits : List Char → List Char × List Char
  | [] => ([], [])
  | c :: cs =>
    if c.isDigit then
      let (d, r) := takeDigits cs
      (c :: d, r)
    else
      ([], c :: cs)

/-- The natural number denoted by a run of decimal digits. -/
def digitsToNat (ds : List Char) : Nat :=
  ds.foldl (fun acc c => acc * 10 + (c.toNat - '0'.toNat)) 0

/-- Ceiling division on naturals, used to evaluate `num.ceil()` exactly. -/
def natCeilDiv (a b : Nat) : Nat :=
  (a + b - 1) / b

/-- Embeds `u8::MAX`, the bound checked by `u8::from_str` for the container count. -/
def u8Max : Nat := 255

/-- Embeds `u32::MAX`; Rust's `as u32` float cast saturates at this bound. -/
def u32Max : Nat := 4294967295

/-- Embeds `struct Size` from `src/saq/detailed_info.rs`: a container count
(`u8`) and a per-container volume in milliliters (`u32`). -/
structure Size where
  container_count : Nat
  container_milliliters : Nat
deriving DecidableEq, Repr

/-- Embeds `parse_size` from `src/saq/detailed_info.rs`: match the size string
against `\A((\d+) x )?(\d+(\.\d+)?) (mL|ml|L)\z` (note the mandatory
space before the unit), defaulting the container count to 1 when group 1
is absent, and converting liters to milliliters with `ceil`. -/
def parse_size (text : String) : Except Unit Size :=
  let cs := text.data
  -- optional group `((\d+) x )?`
  let (countDigits, rest) :=
    match takeDigits cs with
    | (d₁ :: ds, ' ' :: 'x' :: ' ' :: r) => (some (d₁ :: ds), r)
    | _ => (none, cs)
  -- group 2 via `u8::from_str`, or the default of 1
  match
    (match countDigits with
     | some d => if digitsToNat d ≤ u8Max then Except.ok (digitsToNat d) else Except.error ()
     | none => Except.ok 1 : Except Unit Nat)
  with
  | Except.error _ => Except.error ()
  | Except.ok container_count =>
    -- group 3: `\d+(\.\d+)?`
    match takeDigits rest with
    | ([], _) => Except.error ()
    | (intDigits, afterInt) =>
      let fracStep : Except Unit (List Char × List Char) :=
        match afterInt with
        | '.' :: r =>
          match takeDigits r with
          | ([], _) => Except.error ()
          | (fd, r') => Except.ok (fd, r')
        | _ => Except.ok ([], afterInt)
      match fracStep with
      | Except.error _ => Except.error ()
      | Except.ok (fracDigits, afterNum) =>
        -- the mandatory space, then group 5: `(mL|ml|L)\z`
        let k := fracDigits.length
        let scaled := digitsToNat intDigits * 10 ^ k + digitsToNat fracDigits
        match afterNum with
        | [' ', 'm', 'L'] | [' ', 'm', 'l'] =>
          Except.ok ⟨container_count, min (natCeilDiv scaled (10 ^ k)) u32Max⟩
        | [' ', 'L'] =>
          Except.ok ⟨container_count, min (natCeilDiv (scaled * 1000) (10 ^ k)) u32Max⟩
        | _ => Except.error ()

/-! ## The SQLite batch-`NOT IN` predicate (`src/db/mod.rs`)

Each reconciler's batch delete runs
`delete from ... where product_id = ?1 and <key> not in (?2)` with `?2`
bound to the single TEXT value produced by `to_value_list` (a
comma-joined id list).  `x NOT IN (y)` over one expression is `x <> y`
under SQLite's comparison-affinity rules: the key column has INTEGER
affinity, so the TEXT operand is converted to an integer exactly when it
is a well-formed integer literal, and otherwise the comparison is
decided by storage class (INTEGER sorts before TEXT, so they are never
equal).  `to_value_list` only ever produces `""`, one canonical `i64`
rendering, or a comma-joined list, and on those three shapes the
canonical round-trip test below coincides with SQLite's conversion
rule. -/

/-- The decimal digits of `n`, most significant first (`fuel` bounds
the recursion depth; `n + 1` always suffices since `n / 10 < n` for
`n ≥ 1`). -/
def natToDigitsAux : Nat → Nat → List Char
  | 0, _ => []
  | fuel + 1, n =>
    if n < 10 then [Nat.digitChar n]
    else natToDigitsAux fuel (n / 10) ++ [Nat.digitChar (n % 10)]

/-- The canonical decimal rendering of a natural number. -/
def natToDigits (n : Nat) : List Char :=
  natToDigitsAux (n + 1) n

/-- The canonical decimal rendering of an `i64`, as Rust's
`i64::to_string` produces it. -/
def intToDecimalChars (i : Int) : List Char :=
  if i < 0 then '-' :: natToDigits i.natAbs else natToDigits i.toNat

/-- The integer denoted by a string that is exactly an optional `-`
followed by digits; `none` otherwise. -/
def parseIntChars (cs : List Char) : Option Int :=
  match cs with
  | '-' :: rest =>
    match takeDigits rest with
    | (d :: ds, []) => some (-(digitsToNat (d :: ds) : Int))
    | _ => none
  | _ =>
    match takeDigits cs with
    | (d :: ds, []) => some ((digitsToNat (d :: ds) : Int))
    | _ => none

/-- Embeds `to_value_list` from `src/db/mod.rs`: encodes a list of ids as one
comma-separated string, used in place of a real list parameter. -/
def to_value_list (list : List Int) : String :=
  String.intercalate "," (list.map (fun item => String.mk (intToDecimalChars item)))

/-- The integer a TEXT value converts to under SQLite NUMERIC affinity,
if any: the conversion applies when the text is a well-formed integer
literal (tested here by a canonical round-trip, which agrees with SQLite
on every string `to_value_list` can produce). -/
def textAsInteger (s : String) : Option Int :=
  match parseIntChars s.data with
  | some i => if intToDecimalChars i = s.data then some i else none
  | none => none

/-- SQLite's truth value for `key NOT IN (bound)` where `key` is an
INTEGER-affinity column value and `bound` a single TEXT parameter. -/
def notInValueList (key : Int) (bound : String) : Bool :=
  match textAsInteger bound with
  | some j => key != j
  | none => true

/-! ## Association tables and the three reconcilers (`src/db/mod.rs`)

`product_special_features`, `product_grape_varieties` and
`product_categories` all have the shape below (`percentage` is only
used by grape varieties and stays `none` for the other two). -/

/-- One row of an association table: a product id, the associated
dimension/category id, the grape-variety percentage where applicable,
and the row timestamps. -/
structure AssocRow where
  product_id : Int
  key_id : Int
  percentage : Option Nat
  created_at : Nat
  updated_at : Nat
deriving DecidableEq, Repr

/-- Modelled from the spec: the `migrations` directory is not under
`src/`; per §3 every association row carries "its own
`created_at`/`updated_at`", which the schema defaults to the insert
time.  A freshly inserted association row. -/
def newAssocRow (now : Nat) (pid key : Int) (percentage : Option Nat) : AssocRow :=
  { product_id := pid, key_id := key, percentage := percentage,
    created_at := now, updated_at := now }

/-- The per-member upsert of `ensure_product_special_features` and
`ensure_product_categories`: `insert ... on conflict do update set
updated_at=(datetime('now', 'utc'))`. -/
def upsertAssoc (now : Nat) (pid key : Int) (t : List AssocRow) : List AssocRow :=
  if t.any (fun r => r.product_id == pid && r.key_id == key) then
    t.map (fun r =>
      if r.product_id == pid && r.key_id == key then { r with updated_at := now } else r)
  else
    t ++ [newAssocRow now pid key none]

/-- The per-member upsert of `ensure_product_grape_varieties`:
`insert ... on conflict do update set updated_at=(datetime('now',
'utc')), percentage=excluded.percentage`. -/
def upsertGrapeAssoc (now : Nat) (pid key : Int) (pct : Option Nat) (t : List AssocRow) :
    List AssocRow :=
  if t.any (fun r => r.product_id == pid && r.key_id == key) then
    t.map (fun r =>
      if r.product_id == pid && r.key_id == key then
        { r with updated_at := now, percentage := pct }
      else r)
  else
    t ++ [newAssocRow now pid key pct]

/-- The reconcilers' insert loop with its early return: each iteration
either fails at the store (per the failure oracle) or applies that
member's upsert to the transaction-local table. -/
def assocInsertLoop {α : Type} (failOn : α → Bool)
    (upsertOne : α → List AssocRow → List AssocRow) :
    List α → List AssocRow → Except Unit (List AssocRow)
  | [], cur => Except.ok cur
  | k :: rest, cur =>
    if failOn k then Except.error ()
    else assocInsertLoop failOn upsertOne rest (upsertOne k cur)

/-- The rows surviving a reconciler's batch delete
`delete from <t> where product_id = ?1 and <key> not in (?2)`. -/
def afterBatchDelete (pid : Int) (boundList : String) (t : List AssocRow) : List AssocRow :=
  t.filter (fun r => !(r.product_id == pid && notInValueList r.key_id boundList))

/-- Embeds `Client::ensure_product_special_features` from `src/db/mod.rs`.
The call runs inside one transaction begun on the pooled connection:
an `ok` result is the committed table, an `error` result carries the
visible table after `transaction.rollback()`, i.e. the snapshot taken
at `begin`.  `failInsert`/`failDelete` are the store-error oracle for
the individual statements. -/
def ensure_product_special_features (failInsert : Int → Bool) (failDelete : Bool)
    (now : Nat) (product_id : Int) (special_feature_ids : List Int)
    (table : List AssocRow) : Except (List AssocRow) (List AssocRow) :=
  match assocInsertLoop failInsert (fun k t => upsertAssoc now product_id k t)
      special_feature_ids table with
  | Except.error _ => Except.error table
  | Except.ok afterInserts =>
    if failDelete then Except.error table
    else
      let special_feature_id_list := to_value_list special_feature_ids
      Except.ok (afterBatchDelete product_id special_feature_id_list afterInserts)

/-- Embeds `Client::ensure_product_grape_varieties` from `src/db/mod.rs`,
modelled like `ensure_product_special_features`; the upsert also writes
the percentage, and the delete's id list collects the first components
of the processed pairs. -/
def ensure_product_grape_varieties (failInsert : Int → Bool) (failDelete : Bool)
    (now : Nat) (product_id : Int)
    (grape_variety_ids_and_percentages : List (Int × Option Nat))
    (table : List AssocRow) : Except (List AssocRow) (List AssocRow) :=
  match assocInsertLoop (fun kp => failInsert kp.1)
      (fun kp t => upsertGrapeAssoc now product_id kp.1 kp.2 t)
      grape_variety_ids_and_percentages table with
  | Except.error _ => Except.error table
  | Except.ok afterInserts =>
    if failDelete then Except.error table
    else
      let variety_id_list := to_value_list (grape_variety_ids_and_percentages.map Prod.fst)
      Except.ok (afterBatchDelete product_id variety_id_list afterInserts)

/-- Embeds `Client::ensure_product_categories` from `src/db/mod.rs`, the same
shape as `ensure_product_special_features` over `product_categories`. -/
def ensure_product_categories (failInsert : Int → Bool) (failDelete : Bool)
    (now : Nat) (product_id : Int) (category_ids : List Int)
    (table : List AssocRow) : Except (List AssocRow) (List AssocRow) :=
  match assocInsertLoop failInsert (fun k t => upsertAssoc now product_id k t)
      category_ids table with
  | Except.error _ => Except.error table
  | Except.ok afterInserts =>
    if failDelete then Except.error table
    else
      let category_id_list := to_value_list category_ids
      Except.ok (afterBatchDelete product_id category_id_list afterInserts)

/-- The association keys stored for a product, in table order. -/
def storedKeys (pid : Int) (t : List AssocRow) : List Int :=
  (t.filter (fun r => r.product_id == pid)).map (fun r => r.key_id)

/-! ## The product upsert (`src/db/mod.rs`, `Client::upsert_product`)

`f32`/`f64` fields pass through the query untouched, so they are
modelled as `Rat`; timestamps as `Nat` clock values; the `rowid`
assigned to a fresh insert as a `next_id` counter. -/

/-- Embeds `struct ProductUpsertFields` from `src/db/mod.rs`, fields in the
source's alphabetical order. -/
structure ProductUpsertFields where
  abv_percentage : Option Rat
  availability : String
  classification_id : Option Int
  color_id : Option Int
  container_count : Option Nat
  container_milliliters : Option Nat
  country_id : Option Int
  description : String
  designation_of_origin_id : Option Int
  image_url : String
  item_condition : String
  name : String
  price_cad : Rat
  producer_id : Option Int
  product_of_quebec : Option String
  promoting_agent_id : Option Int
  region_id : Option Int
  regulated_designation_id : Option Int
  saq_code : String
  sugar_content_equality : Option String
  sugar_content_grams_per_liter : Option Rat
  upc_code : Option String
deriving DecidableEq, Repr

/-- One row of the `products` table. -/
structure ProductRow where
  id : Int
  fields : ProductUpsertFields
  created_at : Nat
  updated_at : Nat
deriving DecidableEq, Repr

/-- The `products` table plus the next `rowid` to assign. -/
structure ProductDb where
  rows : List ProductRow
  next_id : Int
deriving DecidableEq, Repr

/-- Modelled from the spec: the `migrations` directory is not under
`src/`; per §3 `created_at` is "immutable once set", and the
`upsert_product` doc notes a conflicting row's `updated_at` will
"consequently differ from `created_at`" — so the schema defaults both
to the insert time.  A freshly inserted product row. -/
def newProductRow (now : Nat) (id : Int) (f : ProductUpsertFields) : ProductRow :=
  { id := id, fields := f, created_at := now, updated_at := now }

/-- The `on conflict do update` arm of `upsert_product`'s query: set
`updated_at` to the current time and every field except `saq_code`
(explicitly omitted in the query) and `created_at` (not in the update
list) to the excluded row's values. -/
def productConflictUpdate (now : Nat) (f : ProductUpsertFields) (r : ProductRow) : ProductRow :=
  { r with updated_at := now, fields := { f with saq_code := r.fields.saq_code } }

/-- Embeds `Client::upsert_product` from `src/db/mod.rs`: insert keyed by the
unique `saq_code`, or on conflict update the existing row per
`productConflictUpdate`; either way return the row's id. -/
def upsert_product (now : Nat) (f : ProductUpsertFields) (db : ProductDb) : ProductDb × Int :=
  match db.rows.find? (fun r => r.fields.saq_code == f.saq_code) with
  | some r =>
    ({ db with
        rows := db.rows.map (fun row =>
          if row.fields.saq_code == f.saq_code then productConflictUpdate now f row else row) },
      r.id)
  | none =>
    ({ rows := db.rows ++ [newProductRow now db.next_id f], next_id := db.next_id + 1 },
      db.next_id)

/-! ## The category upsert (`src/db/mod.rs`, `Client::upsert_category`) -/

/-- One row of the `categories` table. -/
structure CategoryRow where
  id : Int
  name : String
  url : String
  parent_category_id : Option Int
  created_at : Nat
  updated_at : Nat
deriving DecidableEq, Repr

/-- The `categories` table plus the next `rowid` to assign. -/
structure CategoryDb where
  rows : List CategoryRow
  next_id : Int
deriving DecidableEq, Repr

/-- SQLite's truth value for `a != b` over nullable INTEGER operands:
if either side is NULL the comparison is NULL, which a WHERE clause
treats as not satisfied. -/
def sqlNeNullable (a b : Option Int) : Bool :=
  match a, b with
  | some x, some y => x != y
  | _, _ => false

/-- Modelled from the spec: the `migrations` directory is not under
`src/`; the category upsert's SQL itself sets only `url` and
`parent_category_id`, and per §3/§8 the row's `updated_at` changes
exactly when the row is materially updated, so the schema touches
`updated_at` on update.  The row after `upsert_category`'s
`do update set url=excluded.url, parent_category_id=excluded.parent_category_id`
fires. -/
def categoryMaterialUpdate (now : Nat) (url : String) (parent_id : Option Int)
    (r : CategoryRow) : CategoryRow :=
  { r with url := url, parent_category_id := parent_id, updated_at := now }

/-- Modelled from the spec: insert-time `created_at`/`updated_at`
defaults, as for the other tables.  A freshly inserted category row. -/
def newCategoryRow (now : Nat) (id : Int) (name url : String) (parent_id : Option Int) :
    CategoryRow :=
  { id := id, name := name, url := url, parent_category_id := parent_id,
    created_at := now, updated_at := now }

/-- Embeds `Client::upsert_category` from `src/db/mod.rs`: insert keyed by the
unique `name`; on conflict the `do update` fires only when its WHERE
clause `(url != excluded.url or parent_category_id !=
excluded.parent_category_id)` is satisfied under SQLite's three-valued
logic; when it does not fire the query returns no row and the id is
fetched by the fallback `select ... where name = ?1 limit 1`. -/
def upsert_category (now : Nat) (name url : String) (parent_id : Option Int)
    (db : CategoryDb) : CategoryDb × Int :=
  match db.rows.find? (fun r => r.name == name) with
  | none =>
    ({ rows := db.rows ++ [newCategoryRow now db.next_id name url parent_id],
       next_id := db.next_id + 1 },
      db.next_id)
  | some r =>
    if r.url != url || sqlNeNullable r.parent_category_id parent_id then
      ({ db with
          rows := db.rows.map (fun row =>
            if row.name == name then categoryMaterialUpdate now url parent_id row else row) },
        r.id)
    else
      (db, r.id)

/-! ## Dimension upserts (`src/db/mod.rs`, `generate_upserts_by_name!`)

The macro generates one method per dimension table, all with the same
body: `insert into <t> (name) values (?1) on conflict do nothing
returning id`, falling back to `select id from <t> where name = ?1
limit 1` when the insert no-ops. -/

/-- One row of a dimension table (`{id, name, created_at, updated_at}`). -/
structure NameRow where
  id : Int
  name : String
  created_at : Nat
  updated_at : Nat
deriving DecidableEq, Repr

/-- A dimension table plus the next `rowid` to assign. -/
structure NameDb where
  rows : List NameRow
  next_id : Int
deriving DecidableEq, Repr

/-- Modelled from the spec: insert-time `created_at`/`updated_at`
defaults, as for the other tables.  A freshly inserted dimension row. -/
def newNameRow (now : Nat) (id : Int) (name : String) : NameRow :=
  { id := id, name := name, created_at := now, updated_at := now }

/-- The body the `generate_upserts_by_name!` macro expands to, over any
one dimension table: insert-or-no-op, then fetch the id by name when
the insert no-oped on the uniqueness conflict. -/
def upsert_by_name (now : Nat) (name : String) (db : NameDb) : NameDb × Int :=
  match db.rows.find? (fun r => r.name == name) with
  | some r => (db, r.id)
  | none =>
    ({ rows := db.rows ++ [newNameRow now db.next_id name], next_id := db.next_id + 1 },
      db.next_id)

/-- Embeds `Client::upsert_producer`, generated for table `producers`. -/
def upsert_producer : Nat → String → NameDb → NameDb × Int := upsert_by_name

/-- Embeds `Client::upsert_promoting_agent`, generated for table `promoting_agents`. -/
def upsert_promoting_agent : Nat → String → NameDb → NameDb × Int := upsert_by_name

/-- Embeds `Client::upsert_color`, generated for table `colors`. -/
def upsert_color : Nat → String → NameDb → NameDb × Int := upsert_by_name

/-- Embeds `Client::upsert_region`, generated for table `regions`. -/
def upsert_region : Nat → String → NameDb → NameDb × Int := upsert_by_name

/-- Embeds `Client::upsert_country`, generated for table `countries`. -/
def upsert_country : Nat → String → NameDb → NameDb × Int := upsert_by_name

/-- Embeds `Client::upsert_grape_variety`, generated for table `grape_varieties`. -/
def upsert_grape_variety : Nat → String → NameDb → NameDb × Int := upsert_by_name

/-- Embeds `Client::upsert_regulated_designation`, generated for table
`regulated_designations`. -/
def upsert_regulated_designation : Nat → String → NameDb → NameDb × Int := upsert_by_name

/-- Embeds `Client::upsert_designation_of_origin`, generated for table
`designations_of_origin`. -/
def upsert_designation_of_origin : Nat → String → NameDb → NameDb × Int := upsert_by_name

/-- Embeds `Client::upsert_classification`, generated for table `classifications`. -/
def upsert_classification : Nat → String → NameDb → NameDb × Int := upsert_by_name

/-- Embeds `Client::upsert_special_feature`, generated for table `special_features`. -/
def upsert_special_feature : Nat → String → NameDb → NameDb × Int := upsert_by_name

/-! ## Catalog pages (`src/saq/mod.rs`, `Client::page`)

`Client::page` fetches a catalog page, reads the pagination widget's
rendered page number, returns `Ok(None)` when it differs from the
requested number (saq.com wraps around instead of rendering an empty
page), and otherwise extracts the JSON-LD entries and pulls the product
list out of the first `WebPage` whose main entity is an `OfferCatalog` —
with a bare `.unwrap()` on that `find_map`.

The embedding works on the already-fetched document.  The JSON-LD
`Product` payload is opaque to this logic, so it is a type parameter;
the structural `@type` tags the extraction matches on are kept. -/

/-- Embeds `ItemListElement` from `src/saq/linked_data.rs`, with the `Product`
payload abstracted. -/
inductive ItemListElement (α : Type) where
  | listItem
  | product (p : α)
  | other
deriving DecidableEq, Repr

/-- Embeds `Entity` from `src/saq/linked_data.rs`: a `WebPage` main entity. -/
inductive Entity (α : Type) where
  | offerCatalog (name url : String) (number_of_items : Int)
      (item_list_element : List (ItemListElement α))
  | other
deriving DecidableEq, Repr

/-- Embeds `LinkedData` from `src/saq/linked_data.rs`. -/
inductive LinkedData (α : Type) where
  | webSite
  | breadcrumbList
  | webPage (main_entity : Option (Entity α)) (url : Option String)
  | product (p : α)
  | other
deriving DecidableEq, Repr

/-- The `find_map` in `Client::page`: the first `WebPage` entry whose
main entity is an `OfferCatalog` yields its item list filtered down to
the `Product` elements; `none` when no entry matches. -/
def productsFromLinkedData {α : Type} : List (LinkedData α) → Option (List α)
  | [] => none
  | ld :: rest =>
    match ld with
    | .webPage (some (.offerCatalog _ _ _ items)) _ =>
      some (items.filterMap (fun e =>
        match e with
        | .product p => some p
        | _ => none))
    | _ => productsFromLinkedData rest

/-- A fetched catalog-page document, at the boundary `Client::page`
consumes it: the pagination widget's text parsed as a `u32` (`none`
covers both a missing widget and an unparseable number, the two `Err`
returns before the wrap-around check) and the parse result of the
JSON-LD `<script>` blocks (`Except.error` for a `serde_json` failure). -/
structure PageDoc (α : Type) where
  current_page : Option Nat
  linked_data : Except Unit (List (LinkedData α))
deriving Repr

/-- What a call to `Client::page` does with a fetched document: return
an error, return `Ok(None)`/`Ok(Some(products))`, or panic. -/
inductive PageOutcome (α : Type) where
  | err
  | panics
  | ok (products : Option (List α))
deriving DecidableEq, Repr

/-- Embeds `Client::page` from `src/saq/mod.rs`, applied to the fetched
document: error when the pagination number is missing or unparseable;
`Ok(None)` when the rendered page number differs from the requested
one; then extract the JSON-LD (error on parse failure) and `.unwrap()`
the product-list `find_map` — which panics when no JSON-LD entry is a
`WebPage` holding an `OfferCatalog`. -/
def page {α : Type} (doc : PageDoc α) (page_number : Nat) : PageOutcome α :=
  match doc.current_page with
  | none => .err
  | some current_page =>
    if current_page != page_number then .ok none
    else
      match doc.linked_data with
      | .error _ => .err
      | .ok lds =>
        match productsFromLinkedData lds with
        | some products => .ok (some products)
        | none => .panics

/-! ## The producer loop and the crawl driver (`src/crawler/mod.rs`) -/

/-- How the `page_task` loop of `crawl` can end: run out of the fuel
this model bounds it by, return (with the stubs it sent, whether it
closed the queue, and its `Result`), or tear down on a panic inside
`Client::page` (surfacing at the driver as a `JoinError`). -/
inductive ProducerOutcome (α : Type) where
  | fuelOut
  | done (sent : List α) (closed : Bool) (result : Except Unit Unit)
  | panicked (sent : List α)
deriving Repr

/-- The producer's inner send loop: one blocking `send.send(product)`
per stub, returning early with the stubs sent so far when a send fails
(which `async_channel` reports only once the channel is closed). -/
def sendAll {α : Type} (sendFails : α → Bool) : List α → List α → Except (List α) (List α)
  | sent, [] => Except.ok sent
  | sent, p :: ps =>
    if sendFails p then Except.error sent else sendAll sendFails (sent ++ [p]) ps

/-- The `page_task` loop of `crawl` (`src/crawler/mod.rs`): starting
from page 1, fetch pages in order; on `Ok(Some(page))` send every stub
and advance, on `Ok(None)` close the queue and finish `Ok`, on `Err`
close the queue and finish with the error; a failed send finishes with
the `SendError` without closing.  `fuel` bounds the number of
iterations the model unrolls. -/
def page_task {α : Type} (getPage : Nat → PageOutcome α) (sendFails : α → Bool) :
    Nat → Nat → List α → ProducerOutcome α
  | 0, _, _ => .fuelOut
  | fuel + 1, page_number, sent =>
    match getPage page_number with
    | .ok (some pageProducts) =>
      match sendAll sendFails sent pageProducts with
      | Except.error sent' => .done sent' false (Except.error ())
      | Except.ok sent' => page_task getPage sendFails fuel (page_number + 1) sent'
    | .ok none => .done sent true (Except.ok ())
    | .err => .done sent true (Except.error ())
    | .panics => .panicked sent

/-- The stubs of pages `n, n+1, ..., n+k-1`, concatenated in catalog
order — what the producer sends before hitting the end of the catalog. -/
def pagesConcat {α : Type} (ps : Nat → List α) (n : Nat) : Nat → List α
  | 0 => []
  | k + 1 => ps n ++ pagesConcat ps (n + 1) k

/-- Size of the worker pool spawned by `crawl` (`(0..8)`). -/
def worker_pool_size : Nat := 8

/-- The driver's worker-join loop (`for join_result in
join_all(product_tasks) { join_result?? }`): the first error in task
order, else `Ok`. -/
def firstWorkerError {ε : Type} : List (Except ε Unit) → Except ε Unit
  | [] => Except.ok ()
  | Except.error e :: _ => Except.error e
  | Except.ok _ :: rest => firstWorkerError rest

/-- The top-level join logic of `crawl` (`src/crawler/mod.rs`, lines
87–93): `page_task.await??` surfaces the producer's error first;
otherwise the workers are awaited via `join_all` and the first worker
error is surfaced; `Ok(())` only when all succeed. -/
def crawl_driver {ε : Type} (producer : Except ε Unit) (workers : List (Except ε Unit)) :
    Except ε Unit :=
  match producer with
  | Except.error e => Except.error e
  | Except.ok _ => firstWorkerError workers

/-! ## Concrete inputs used by the witnesses -/

/-- A concrete `ProductUpsertFields` value with `saq_code` `"X"`. -/
def exampleFields : ProductUpsertFields :=
  { abv_percentage := none, availability := "in_stock", classification_id := none,
    color_id := none, container_count := none, container_milliliters := none,
    country_id := none, description := "d", designation_of_origin_id := none,
    image_url := "i", item_condition := "new", name := "n", price_cad := 10,
    producer_id := none, product_of_quebec := none, promoting_agent_id := none,
    region_id := none, regulated_designation_id := none, saq_code := "X",
    sugar_content_equality := none, sugar_content_grams_per_liter := none,
    upc_code := none }

/-- The spec's fake catalog: page 1 renders correctly with one product,
page 2 echoes page 1's page number again. -/
def echoDocs : Nat → PageDoc Unit := fun n =>
  { current_page := some (if n = 2 then 1 else n),
    linked_data := Except.ok
      [LinkedData.webPage
        (some (Entity.offerCatalog "Products" "https://www.saq.com/en/products" 1
          [ItemListElement.product ()])) none] }

/-! ## Shared lemmas -/

/-- When no send fails, the producer's send loop delivers every stub of
the page, in order. -/
theorem sendAll_ok {α : Type} (sendFails : α → Bool) (hs : ∀ p, sendFails p = false) :
    ∀ (l sent : List α), sendAll sendFails sent l = Except.ok (sent ++ l) := by
  intro l
  induction l with
  | nil => intro sent; simp [sendAll]
  | cons p ps ih => intro sent; simp [sendAll, hs p, ih (sent ++ [p])]

/-- The producer loop, run over `k` correctly rendered pages followed by
an end-of-catalog sentinel, finishes successfully with the queue closed,
having sent those pages' stubs in order; fuel `k + 1` suffices. -/
theorem page_task_run {α : Type} (getPage : Nat → PageOutcome α) (sendFails : α → Bool)
    (hs : ∀ p, sendFails p = false) (ps : Nat → List α) :
    ∀ (k n : Nat) (sent : List α),
      (∀ j, j < k → getPage (n + j) = PageOutcome.ok (some (ps (n + j)))) →
      getPage (n + k) = PageOutcome.ok none →
      page_task getPage sendFails (k + 1) n sent
        = ProducerOutcome.done (sent ++ pagesConcat ps n k) true (Except.ok ()) := by
  intro k
  induction k with
  | zero =>
    intro n sent _ hlast
    simp only [Nat.add_zero] at hlast
    simp [page_task, hlast, pagesConcat]
  | succ k ih =>
    intro n sent h hlast
    have h0 : getPage n = PageOutcome.ok (some (ps n)) := by
      have := h 0 (Nat.succ_pos k)
      simpa using this
    have hrest : ∀ j, j < k →
        getPage (n + 1 + j) = PageOutcome.ok (some (ps (n + 1 + j))) := by
      intro j hj
      have := h (j + 1) (by omega)
      rwa [show n + (j + 1) = n + 1 + j by omega] at this
    have hlast' : getPage (n + 1 + k) = PageOutcome.ok none := by
      rwa [show n + (k + 1) = n + 1 + k by omega] at hlast
    calc page_task getPage sendFails (k + 1 + 1) n sent
        = page_task getPage sendFails (k + 1) (n + 1) (sent ++ ps n) := by
          simp [page_task, h0, sendAll_ok sendFails hs]
      _ = ProducerOutcome.done ((sent ++ ps n) ++ pagesConcat ps (n + 1) k) true
            (Except.ok ()) := ih (n + 1) (sent ++ ps n) hrest hlast'
      _ = ProducerOutcome.done (sent ++ pagesConcat ps n (k + 1)) true (Except.ok ()) := by
          simp [pagesConcat, List.append_assoc]

/-- The driver's worker join succeeds exactly when every worker did. -/
theorem firstWorkerError_eq_ok {ε : Type} :
    ∀ ws : List (Except ε Unit),
      firstWorkerError ws = Except.ok () ↔ ∀ w ∈ ws, w = Except.ok () := by
  intro ws
  induction ws with
  | nil => simp [firstWorkerError]
  | cons w rest ih =>
    cases w with
    | error e =>
      simp only [firstWorkerError, List.mem_cons]
      constructor
      · intro h; exact absurd h (by simp)
      · intro h; exact absurd (h (Except.error e) (Or.inl rfl)) (by simp)
    | ok u =>
      cases u
      simp only [firstWorkerError, List.mem_cons]
      rw [ih]
      constructor
      · intro h w' hw'
        cases hw' with
        | inl h' => simp [h']
        | inr h' => exact h w' h'
      · intro h w' hw'
        exact h w' (Or.inr hw')

/-- The driver's worker join surfaces the first error in task order. -/
theorem firstWorkerError_first {ε : Type} :
    ∀ (pre : List (Except ε Unit)) (e : ε) (rest : List (Except ε Unit)),
      (∀ w ∈ pre, w = Except.ok ()) →
      firstWorkerError (pre ++ Except.error e :: rest) = Except.error e := by
  intro pre
  induction pre with
  | nil => intro e rest _; simp [firstWorkerError]
  | cons w pre' ih =>
    intro e rest h
    have hw : w = Except.ok () := h w (List.mem_cons_self w pre')
    subst hw
    simpa [firstWorkerError] using ih e rest (fun w' hw' => h w' (List.mem_cons_of_mem _ hw'))

/-! ## The claims -/

/-- C1: the claim states that after a successful Association Reconciler
call the stored association set for the product equals exactly the
target set.  The code violates this for any target of two or more
keys: the batch delete's `not in (?2)` parameter is the single TEXT
value `"1,2"`, which no INTEGER key equals, so the delete removes every
association row of the product — including the rows the same
transaction just upserted — and the committed set is empty.  This
theorem evaluates the embedded `ensure_product_special_features` at the
failing input (target `[1, 2]`, one matching row already stored) and,
for contrast, at the singleton target `[1]` where the code behaves as
claimed. -/
theorem ensure_special_features_multi_target_eval :
    ensure_product_special_features (fun _ => false) false 7 1 [1, 2]
        [newAssocRow 3 1 1 none]
      = Except.ok []
    ∧ ensure_product_special_features (fun _ => false) false 7 1 [1]
        [newAssocRow 3 1 1 none]
      = Except.ok [{ product_id := 1, key_id := 1, percentage := none,
                     created_at := 3, updated_at := 7 }] :=
  ⟨rfl, rfl⟩

/-- C2: whenever any step of a reconciler call fails (a per-member
upsert or the batch delete, per the failure oracle), the call returns
the error branch and the visible table is exactly the pre-call table:
the transaction was rolled back and no partial membership is
observable.  Stated for all three reconcilers. -/
theorem ensure_assoc_rollback_on_failure (failInsert : Int → Bool) (failDelete : Bool)
    (now : Nat) (pid : Int) (ids : List Int) (targets : List (Int × Option Nat))
    (cids : List Int) (table t : List AssocRow) :
    (ensure_product_special_features failInsert failDelete now pid ids table
        = Except.error t → t = table)
    ∧ (ensure_product_grape_varieties failInsert failDelete now pid targets table
        = Except.error t → t = table)
    ∧ (ensure_product_categories failInsert failDelete now pid cids table
        = Except.error t → t = table) := by
  refine ⟨?_, ?_, ?_⟩ <;> intro h
  · unfold ensure_product_special_features at h
    split at h
    · injection h with h'; exact h'.symm
    · split at h
      · injection h with h'; exact h'.symm
      · simp at h
  · unfold ensure_product_grape_varieties at h
    split at h
    · injection h with h'; exact h'.symm
    · split at h
      · injection h with h'; exact h'.symm
      · simp at h
  · unfold ensure_product_categories at h
    split at h
    · injection h with h'; exact h'.symm
    · split at h
      · injection h with h'; exact h'.symm
      · simp at h

/-- Witness for C2: a concrete failing call (the store rejects every
per-member upsert) whose rollback leaves the empty table unchanged. -/
theorem ensure_assoc_rollback_on_failure_witness :
    ensure_product_special_features (fun _ => true) false 7 1 [1] [] = Except.error []
      ∧ ([] : List AssocRow) = [] :=
  ⟨rfl,
    (ensure_assoc_rollback_on_failure (fun _ => true) false 7 1 [1] [(2, some 50)] [3]
      [] []).1 rfl⟩

/-- C3 counterexample: the claim states `"6 x 200ml"` parses
successfully; in fact the size regex
`\A((\d+) x )?(\d+(\.\d+)?) (mL|ml|L)\z` requires a space before the
unit, so `parse_size` returns an error on this input. -/
theorem parse_size_unspaced_counterexample :
    parse_size "6 x 200ml" = Except.error () := rfl

/-- C3 amended: with the space the regex demands, `"6 x 200 ml"` parses
to container_count 6 and container_milliliters 200, and `"2.25 L"`
parses to container_count 1 and container_milliliters 2250 (liters
converted to milliliters and rounded up). -/
theorem parse_size_spaced_amended :
    parse_size "6 x 200 ml" = Except.ok ⟨6, 200⟩
      ∧ parse_size "2.25 L" = Except.ok ⟨1, 2250⟩ :=
  ⟨rfl, rfl⟩

/-- C4: the claim states that re-upserting a category with a different
parent id changes `updated_at`.  The `do update`'s WHERE clause compares
parents with `!=`, which is NULL (not satisfied) whenever either side is
NULL, so changing the parent from NULL to 3 performs no write at all:
the row — parent and `updated_at` included — is returned untouched.
The second and third conjuncts show the nearby behavior that does hold:
a url change touches the row, and an identical re-upsert is a no-op. -/
theorem upsert_category_null_parent_eval :
    upsert_category 5 "Wine" "https://example/wine" (some 3)
        { rows := [newCategoryRow 2 10 "Wine" "https://example/wine" none], next_id := 11 }
      = ({ rows := [newCategoryRow 2 10 "Wine" "https://example/wine" none],
           next_id := 11 }, 10)
    ∧ upsert_category 5 "Wine" "https://example/wine2" none
        { rows := [newCategoryRow 2 10 "Wine" "https://example/wine" none], next_id := 11 }
      = ({ rows := [{ id := 10, name := "Wine", url := "https://example/wine2",
                      parent_category_id := none, created_at := 2, updated_at := 5 }],
           next_id := 11 }, 10)
    ∧ upsert_category 5 "Wine" "https://example/wine" (some 3)
        { rows := [newCategoryRow 2 10 "Wine" "https://example/wine" (some 3)],
          next_id := 11 }
      = ({ rows := [newCategoryRow 2 10 "Wine" "https://example/wine" (some 3)],
           next_id := 11 }, 10) :=
  ⟨rfl, rfl, rfl⟩

/-- C5: upserting a product whose `saq_code` already has a row returns
that row's id, replaces every field except `saq_code` and `created_at`
with the new values, sets `updated_at` to the current time (for every
conflicting call, the new field values being arbitrary — equal to the
old ones or not), and leaves rows with other codes in place. -/
theorem upsert_product_conflict (now : Nat) (f : ProductUpsertFields) (db : ProductDb)
    (r : ProductRow)
    (hfind : db.rows.find? (fun row => row.fields.saq_code == f.saq_code) = some r) :
    (upsert_product now f db).2 = r.id
    ∧ ({ id := r.id, fields := { f with saq_code := r.fields.saq_code },
         created_at := r.created_at, updated_at := now } : ProductRow)
        ∈ (upsert_product now f db).1.rows
    ∧ ∀ row ∈ db.rows, row.fields.saq_code ≠ f.saq_code →
        row ∈ (upsert_product now f db).1.rows := by
  have hmem : r ∈ db.rows := List.mem_of_find?_eq_some hfind
  have hpred : (r.fields.saq_code == f.saq_code) = true :=
    List.find?_some (p := fun (row : ProductRow) => row.fields.saq_code == f.saq_code) hfind
  refine ⟨?_, ?_, ?_⟩
  · simp [upsert_product, hfind]
  · simp only [upsert_product, hfind]
    refine List.mem_map.mpr ⟨r, hmem, ?_⟩
    simp [hpred, productConflictUpdate]
  · intro row hrow hne
    simp only [upsert_product, hfind]
    refine List.mem_map.mpr ⟨row, hrow, ?_⟩
    simp [beq_eq_false_iff_ne.mpr hne]

/-- Witness for C5: a concrete conflicting upsert (same `saq_code`,
different name) returning the original row id. -/
theorem upsert_product_conflict_witness :
    (upsert_product 5 { exampleFields with name := "n2" }
        { rows := [newProductRow 1 10 exampleFields], next_id := 11 }).2 = 10 :=
  (upsert_product_conflict 5 { exampleFields with name := "n2" }
    { rows := [newProductRow 1 10 exampleFields], next_id := 11 }
    (newProductRow 1 10 exampleFields) rfl).1

/-- C6: on a table whose rows are unique by name (the store's
constraint), calling the generated dimension upsert twice with the same
name returns the same id both times and leaves exactly one row with
that name. -/
theorem upsert_by_name_idempotent (now₁ now₂ : Nat) (name : String) (db : NameDb)
    (huniq : (db.rows.filter (fun r => r.name == name)).length ≤ 1) :
    (upsert_by_name now₂ name (upsert_by_name now₁ name db).1).2
        = (upsert_by_name now₁ name db).2
    ∧ ((upsert_by_name now₂ name (upsert_by_name now₁ name db).1).1.rows.filter
        (fun r => r.name == name)).length = 1 := by
  cases hfind : db.rows.find? (fun r => r.name == name) with
  | some r =>
    have hmem : r ∈ db.rows := List.mem_of_find?_eq_some hfind
    have hpred : (r.name == name) = true :=
      List.find?_some (p := fun (r : NameRow) => r.name == name) hfind
    have hone : 1 ≤ (db.rows.filter (fun r => r.name == name)).length := by
      have : r ∈ db.rows.filter (fun r => r.name == name) :=
        List.mem_filter.mpr ⟨hmem, hpred⟩
      exact List.length_pos.mpr (List.ne_nil_of_mem this)
    simp only [upsert_by_name, hfind]
    exact ⟨by trivial, Nat.le_antisymm huniq hone⟩
  | none =>
    have hnone : ∀ x ∈ db.rows, ¬((fun r => r.name == name) x = true) :=
      fun x hx => by
        have := List.find?_eq_none.mp hfind x hx
        simpa using this
    have hfilter : db.rows.filter (fun r => r.name == name) = [] := by
      rw [List.filter_eq_nil_iff]
      intro a ha
      exact hnone a ha
    have hfind₂ :
        (db.rows ++ [newNameRow now₁ db.next_id name]).find? (fun r => r.name == name)
          = some (newNameRow now₁ db.next_id name) := by
      rw [List.find?_append]
      have : db.rows.find? (fun r => r.name == name) = none := hfind
      simp [this, List.find?, newNameRow]
    simp only [upsert_by_name, hfind, hfind₂]
    constructor
    · rfl
    · simp [List.filter_append, hfilter, newNameRow]

/-- Witness for C6: two upserts of the same name on the empty table
(trivially unique by name) return the same id. -/
theorem upsert_by_name_idempotent_witness :
    (upsert_by_name 2 "Upserted Name"
        (upsert_by_name 1 "Upserted Name" ({ rows := [], next_id := 1 } : NameDb)).1).2
      = (upsert_by_name 1 "Upserted Name" ({ rows := [], next_id := 1 } : NameDb)).2 :=
  (upsert_by_name_idempotent 1 2 "Upserted Name" { rows := [], next_id := 1 }
    (by simp)).1

/-- C7: with the fixed pool of 8 workers, the crawl driver returns `Ok`
exactly when the producer and every worker finished `Ok`; a producer
error is surfaced first, without consulting the workers; otherwise the
first worker error in task order is surfaced. -/
theorem crawl_driver_outcome {ε : Type} (producer : Except ε Unit)
    (workers : List (Except ε Unit)) (hlen : workers.length = worker_pool_size) :
    (crawl_driver producer workers = Except.ok ()
        ↔ producer = Except.ok () ∧ ∀ w ∈ workers, w = Except.ok ())
    ∧ (∀ e, producer = Except.error e → crawl_driver producer workers = Except.error e)
    ∧ (∀ pre e rest, producer = Except.ok () →
        workers = pre ++ Except.error e :: rest → (∀ w ∈ pre, w = Except.ok ()) →
        crawl_driver producer workers = Except.error e) := by
  refine ⟨?_, ?_, ?_⟩
  · cases producer with
    | error e =>
      simp only [crawl_driver]
      constructor
      · intro h; exact absurd h (by simp)
      · intro h; exact absurd h.1 (by simp)
    | ok u =>
      cases u
      simp [crawl_driver, firstWorkerError_eq_ok]
  · intro e he
    subst he
    rfl
  · intro pre e rest hp hws hpre
    subst hp
    subst hws
    simpa [crawl_driver] using firstWorkerError_first pre e rest hpre

/-- Witness for C7: a producer and 8 workers that all finish `Ok` give
an `Ok` crawl. -/
theorem crawl_driver_outcome_witness :
    crawl_driver (Except.ok ())
        (List.replicate 8 (Except.ok () : Except Unit Unit)) = Except.ok () :=
  (crawl_driver_outcome (Except.ok ()) (List.replicate 8 (Except.ok ())) rfl).1.mpr
    ⟨rfl, fun _w hw => List.eq_of_mem_replicate hw⟩

/-- C8: for any catalog source that renders pages `1..k` correctly and
echoes a page number different from `k + 1` when page `k + 1` is
requested, `Client::page` returns the `None` sentinel (not an error) at
page `k + 1`, and the producer loop terminates within `k + 1`
iterations: it sends pages `1..k`'s stubs, closes the queue, and
finishes `Ok`. -/
theorem page_task_ends_on_echo_mismatch {α : Type} (docs : Nat → PageDoc α)
    (sendFails : α → Bool) (ps : Nat → List α) (k r : Nat)
    (hsend : ∀ p, sendFails p = false)
    (hbefore : ∀ m, 1 ≤ m → m ≤ k → page (docs m) m = PageOutcome.ok (some (ps m)))
    (hecho : (docs (k + 1)).current_page = some r) (hr : r ≠ k + 1) :
    page (docs (k + 1)) (k + 1) = PageOutcome.ok none
    ∧ page_task (fun n => page (docs n) n) sendFails (k + 1) 1 []
        = ProducerOutcome.done (pagesConcat ps 1 k) true (Except.ok ()) := by
  have hlast : page (docs (k + 1)) (k + 1) = PageOutcome.ok none := by
    simp [page, hecho, hr]
  refine ⟨hlast, ?_⟩
  have h := page_task_run (fun n => page (docs n) n) sendFails hsend ps k 1 []
    (fun j hj => by
      have := hbefore (1 + j) (by omega) (by omega)
      simpa using this)
    (by rwa [show 1 + k = k + 1 by omega])
  simpa using h

/-- Witness for C8: the spec's fake catalog (`echoDocs`) that reports
page 1 correctly and echoes page 1 again for page 2 makes the producer
finish `Ok` after sending page 1's single stub. -/
theorem page_task_ends_on_echo_mismatch_witness :
    page_task (fun n => page (echoDocs n) n) (fun _ => false) 2 1 []
      = ProducerOutcome.done [()] true (Except.ok ()) := by
  have h := page_task_ends_on_echo_mismatch echoDocs (fun _ => false) (fun _ => [()]) 1 1
    (fun _ => rfl)
    (fun m h1 h2 => by
      have hm : m = 1 := Nat.le_antisymm h2 h1
      subst hm
      rfl)
    rfl (by decide)
  exact h.2

/-- C9: the database serialization of each enumeration maps the
complete variant list onto exactly the fixed string set the spec gives,
without collisions. -/
theorem db_serialize_exhaustive :
    (∀ a : ItemAvailability, a ∈ ItemAvailability.all)
    ∧ ItemAvailability.all.map ItemAvailability.db_serialize
        = ["back_order", "discontinued", "in_stock", "in_store_only",
           "limited_availability", "online_only", "out_of_stock", "pre_order",
           "pre_sale", "sold_out"]
    ∧ (ItemAvailability.all.map ItemAvailability.db_serialize).Nodup
    ∧ (∀ c : OfferItemCondition, c ∈ OfferItemCondition.all)
    ∧ OfferItemCondition.all.map OfferItemCondition.db_serialize
        = ["damaged", "new", "refurbished", "used"]
    ∧ (OfferItemCondition.all.map OfferItemCondition.db_serialize).Nodup
    ∧ (∀ p : ProductOfQuebec, p ∈ ProductOfQuebec.all)
    ∧ ProductOfQuebec.all.map ProductOfQuebec.db_serialize
        = ["bottled_in_quebec", "made_in_quebec", "origine_quebec"]
    ∧ (ProductOfQuebec.all.map ProductOfQuebec.db_serialize).Nodup
    ∧ (∀ s : SugarContentEquality, s ∈ SugarContentEquality.all)
    ∧ SugarContentEquality.all.map SugarContentEquality.db_serialize = [">", "<", "="]
    ∧ (SugarContentEquality.all.map SugarContentEquality.db_serialize).Nodup := by
  refine ⟨fun a => ?_, by decide, by decide, fun c => ?_, by decide, by decide,
    fun p => ?_, by decide, by decide, fun s => ?_, by decide, by decide⟩
  · cases a <;> decide
  · cases c <;> decide
  · cases p <;> decide
  · cases s <;> decide

/-- C10: `Client::page` panics rather than erroring on a document whose
echoed page number matches the request but whose JSON-LD entries hold no
`WebPage` with an `OfferCatalog` main entity: the product-list
extraction `.unwrap()`s a `None`. -/
theorem page_panics_without_offer_catalog :
    page ({ current_page := some 1,
            linked_data := Except.ok
              [LinkedData.webSite, LinkedData.webPage none none,
               LinkedData.webPage (some Entity.other) none] } : PageDoc Unit) 1
      = PageOutcome.panics := rfl

end Ransaq
